import Mathlib

/-!
Shallow embedding of the icicle installer core (`src/utils/install.rs`):
the partition-scheme boot-device resolver, the configuration-template
renderer (`makeconfig` / `iterwrite`) and the install orchestrator worker
(`InstallAsyncModel::update`), together with theorems settling the spec's
claims about them.

Strings are modelled as `List Char`.  External commands (pkexec, uname,
nixos-generate-config, the icicle-helper, chpasswd, nixos-version) are
modelled by an environment record supplying their observable outcomes.
-/

set_option autoImplicit false
set_option maxRecDepth 4000

/-! ## Rust `str::replace`

`str::replace(pat, rep)` replaces every non-overlapping occurrence of
`pat`, scanning left to right; the replacement text is not rescanned.
The definition is fueled (fuel bounded by the string length) so that it
is structurally recursive and kernel-reducible.  An empty pattern is
never used by the renderer, so the empty-pattern case is irrelevant to
every theorem below.
-/

/-- Boolean prefix test on character lists (Rust `str::starts_with`). -/
def isPre : List Char → List Char → Bool
  | [], _ => true
  | _ :: _, [] => false
  | a :: as, b :: bs => a == b && isPre as bs

/-- Boolean substring test: does `pat` occur anywhere in the list? -/
def occursIn (pat : List Char) : List Char → Bool
  | [] => isPre pat []
  | c :: rest => isPre pat (c :: rest) || occursIn pat rest

/-- Fueled worker for `replaceAll`; one unit of fuel is spent per
consumed character, so `s.length` fuel always suffices. -/
def replaceAllFuel (pat rep : List Char) : Nat → List Char → List Char
  | _, [] => []
  | 0, s => s
  | fuel + 1, c :: rest =>
    if pat ≠ [] ∧ isPre pat (c :: rest) then
      rep ++ replaceAllFuel pat rep fuel ((c :: rest).drop pat.length)
    else
      c :: replaceAllFuel pat rep fuel rest

/-- Embedding of Rust `str::replace`: replace every non-overlapping
occurrence of `pat` in `s` by `rep`, scanning left to right. -/
def replaceAll (s pat rep : List Char) : List Char :=
  replaceAllFuel pat rep s.length s

theorem replaceAllFuel_nil (pat rep : List Char) (fuel : Nat) :
    replaceAllFuel pat rep fuel [] = [] := by
  cases fuel <;> rfl

theorem replaceAllFuel_congr (pat rep : List Char) :
    ∀ f₁ f₂ (s : List Char), s.length ≤ f₁ → s.length ≤ f₂ →
      replaceAllFuel pat rep f₁ s = replaceAllFuel pat rep f₂ s := by
  intro f₁
  induction f₁ with
  | zero =>
    intro f₂ s h₁ _
    have hs : s = [] := List.eq_nil_of_length_eq_zero (Nat.le_zero.mp h₁)
    subst hs
    simp [replaceAllFuel_nil]
  | succ f ih =>
    intro f₂ s h₁ h₂
    cases s with
    | nil => simp [replaceAllFuel_nil]
    | cons c rest =>
      cases f₂ with
      | zero => simp at h₂
      | succ f₂' =>
        simp only [replaceAllFuel]
        by_cases hcond : pat ≠ [] ∧ isPre pat (c :: rest)
        · have hpat : 1 ≤ pat.length := by
            cases hp : pat with
            | nil => exact absurd hp hcond.1
            | cons a as => simp
          have hdl : ((c :: rest).drop pat.length).length ≤ f := by
            simp only [List.length_drop, List.length_cons]
            simp only [List.length_cons] at h₁
            omega
          have hdl₂ : ((c :: rest).drop pat.length).length ≤ f₂' := by
            simp only [List.length_drop, List.length_cons]
            simp only [List.length_cons] at h₂
            omega
          rw [if_pos hcond, if_pos hcond, ih f₂' _ hdl hdl₂]
        · have hr : rest.length ≤ f := by
            simp only [List.length_cons] at h₁; omega
          have hr₂ : rest.length ≤ f₂' := by
            simp only [List.length_cons] at h₂; omega
          rw [if_neg hcond, if_neg hcond, ih f₂' rest hr hr₂]

/-- Step equation for `replaceAll` on a nonempty string. -/
theorem replaceAll_cons (pat rep : List Char) (c : Char) (rest : List Char) :
    replaceAll (c :: rest) pat rep =
      if pat ≠ [] ∧ isPre pat (c :: rest) then
        rep ++ replaceAll ((c :: rest).drop pat.length) pat rep
      else c :: replaceAll rest pat rep := by
  show replaceAllFuel pat rep (c :: rest).length (c :: rest) = _
  simp only [List.length_cons, replaceAllFuel]
  by_cases hcond : pat ≠ [] ∧ isPre pat (c :: rest)
  · have hpat : 1 ≤ pat.length := by
      cases hp : pat with
      | nil => exact absurd hp hcond.1
      | cons a as => simp
    have hdl : ((c :: rest).drop pat.length).length ≤ rest.length := by
      simp only [List.length_drop, List.length_cons]; omega
    rw [if_pos hcond, if_pos hcond,
      replaceAllFuel_congr pat rep rest.length ((c :: rest).drop pat.length).length
        _ hdl (Nat.le_refl _)]
    rfl
  · rw [if_neg hcond, if_neg hcond]
    rfl

theorem replaceAll_nil (pat rep : List Char) : replaceAll [] pat rep = [] := by
  show replaceAllFuel pat rep 0 [] = []
  rfl

/-- If `pat` does not occur in `s`, `replaceAll` leaves `s` unchanged. -/
theorem replaceAll_of_not_occurs (pat rep : List Char) :
    ∀ s : List Char, occursIn pat s = false → replaceAll s pat rep = s := by
  intro s
  induction s with
  | nil => intro _; exact replaceAll_nil pat rep
  | cons c rest ih =>
    intro h
    simp only [occursIn, Bool.or_eq_false_iff] at h
    rw [replaceAll_cons]
    have : ¬ (pat ≠ [] ∧ isPre pat (c :: rest)) := by
      intro hc
      rw [h.1] at hc
      exact Bool.false_ne_true hc.2
    rw [if_neg this, ih h.2]

theorem isPre_append_self (pat t : List Char) : isPre pat (pat ++ t) = true := by
  induction pat with
  | nil => rfl
  | cons a as ih => simp [isPre, ih]

/-- The function `replaceAll` fires on a leading occurrence of the pattern. -/
theorem replaceAll_append_self (pat rep t : List Char) (hpat : pat ≠ []) :
    replaceAll (pat ++ t) pat rep = rep ++ replaceAll t pat rep := by
  cases hp : pat with
  | nil => exact absurd hp hpat
  | cons a as =>
    rw [← hp]
    have hne : pat ++ t = pat.head hpat :: (pat.tail ++ t) := by
      cases pat with
      | nil => exact absurd rfl hpat
      | cons x xs => simp
    rw [hne, replaceAll_cons]
    have hpre : isPre pat (pat.head hpat :: (pat.tail ++ t)) = true := by
      rw [← hne]; exact isPre_append_self pat t
    rw [if_pos ⟨hpat, hpre⟩]
    have hdrop : (pat.head hpat :: (pat.tail ++ t)).drop pat.length = t := by
      rw [← hne]
      exact List.drop_left pat t
    rw [hdrop]

/-- Characters other than the pattern's first character are copied
through unchanged by `replaceAll`. -/
theorem replaceAll_skip (p rep : List Char) :
    ∀ (a t : List Char), (∀ x ∈ a, x ≠ '@') →
      replaceAll (a ++ t) ('@' :: p) rep = a ++ replaceAll t ('@' :: p) rep := by
  intro a
  induction a with
  | nil => intro t _; simp
  | cons x a' ih =>
    intro t hx
    have hxne : x ≠ '@' := hx x (by simp)
    rw [List.cons_append, replaceAll_cons]
    have hpre : isPre ('@' :: p) (x :: (a' ++ t)) = false := by
      simp only [isPre, Bool.and_eq_false_iff]
      left
      simp [beq_iff_eq]
      intro h
      exact hxne h.symm
    have : ¬ (('@' :: p) ≠ [] ∧ isPre ('@' :: p) (x :: (a' ++ t))) := by
      intro hc
      rw [hpre] at hc
      exact Bool.false_ne_true hc.2
    rw [if_neg this, ih t (fun y hy => hx y (List.mem_cons_of_mem x hy)),
      List.cons_append]

/-- A string free of the marker character `'@'` is left unchanged. -/
theorem replaceAll_of_no_at (p rep : List Char) (a : List Char)
    (ha : ∀ x ∈ a, x ≠ '@') : replaceAll a ('@' :: p) rep = a := by
  have := replaceAll_skip p rep a [] ha
  simpa [replaceAll_nil] using this

/-! ## Data model

Types consumed by `install.rs`.  Their defining modules
(`ui/window.rs`, `ui/pages/partitions.rs`, `utils/parse.rs`) are not in
the shown sources; the fields below are exactly those accessed by
`install.rs`.  Rust `HashMap`s are modelled as association lists, so the
model's iteration order is the list order. -/

structure UserConfig where
  username : String
  name : String
  password : String
  rootpassword : Option String
  hostname : String
  autologin : Bool
  deriving DecidableEq

structure Partition where
  device : String
  mountpoint : Option String
  deriving DecidableEq

inductive PartitionSchema where
  | fullDisk (disk : String)
  | custom (partitions : List (String × Partition))
  deriving DecidableEq

structure Choice where
  packages : Option (List String)
  config : Option String
  deriving DecidableEq

inductive ConfigType where
  | standard
  | snowfall
  deriving DecidableEq

/-- Argument record of `makeconfig` (install.rs lines 317-325). -/
structure MakeConfig where
  id : String
  language : Option String
  timezone : Option String
  keyboard : Option String
  user : Option UserConfig
  list : List (String × List (String × Choice))
  bootdisk : Option String

/-- Boot-device resolution (install.rs lines 159-173): `FullDisk` yields
the disk; `Custom` scans the entries and keeps the device of the last
entry mounted at `"/"`; no scheme yields none. -/
def resolveBootDevice : Option PartitionSchema → Option String
  | none => none
  | some (PartitionSchema.fullDisk disk) => some disk
  | some (PartitionSchema.custom partitions) =>
    partitions.foldl
      (fun acc part =>
        if part.2.mountpoint = some ("/") then some part.2.device else acc)
      none

/-! ## Substitution stanzas (the exact replacement texts of `iterwrite`) -/

def uefiStanza : List Char :=
  ("  # Bootloader.\n  boot.loader.systemd-boot.enable = true;\n  boot.loader.efi.canTouchEfiVariables = true;\n  boot.loader.efi.efiSysMountPoint = \"/boot/efi\";").data

def grubStanza (d : String) : List Char :=
  ("  # Bootloader.\n  boot.loader.grub.enable = true;\n  boot.loader.grub.device = \"").data ++
    d.data ++ ("\";\n  boot.loader.grub.useOSProber = true;").data

def networkStanza (hostname : String) : List Char :=
  ("  # Define your hostname.\n  networking.hostName = \"").data ++
    hostname.data ++
    ("\";\n\n  # Enable networking\n  networking.networkmanager.enable = true;").data

def timezoneStanza (tz : String) : List Char :=
  ("  # Set your time zone.\n  time.timeZone = \"").data ++ tz.data ++ ("\";").data

def localeStanza (locale : String) : List Char :=
  ("  # Select internationalisation properties.\n  i18n.defaultLocale = \"").data ++
    locale.data ++ ("\";").data

def keyboardVariantStanza (layout variant : List Char) : List Char :=
  ("  # Set the keyboard layout.\n  services.xserver = \x7b\n    layout = \"").data ++
    layout ++ ("\";\n    xkbVariant = \"").data ++ variant ++
    ("\";\n  \x7d;\n  console.useXkbConfig = true;").data

def keyboardStanza (keymap : String) : List Char :=
  ("  # Set the keyboard layout.\n  services.xserver.layout = \"").data ++
    keymap.data ++ ("\";\n  console.useXkbConfig = true;").data

def desktopStanza : List Char :=
  ("  # Enable the X11 windowing system.\n  services.xserver.enable = true;\n  # Enable the GNOME Desktop Environment.\n  services.xserver.displayManager.gdm.enable = true;\n  services.xserver.desktopManager.gnome.enable = true;").data

def autologinStanza (username : String) : List Char :=
  ("  # Enable automatic login for the user.\n  services.xserver.displayManager.autoLogin.enable = true;\n  services.xserver.displayManager.autoLogin.user = \"").data ++
    username.data ++
    ("\";\n  # Workaround for GNOME autologin: https://github.com/NixOS/nixpkgs/issues/103746#issuecomment-945091229\n  systemd.services.\"getty@tty1\".enable = false;\n  systemd.services.\"autovt@tty1\".enable = false;\n").data

/-- Rust `Vec::join(sep)`. -/
def joinSep (sep : List Char) : List String → List Char
  | [] => []
  | [x] => x.data
  | x :: rest => x.data ++ sep ++ joinSep sep rest

/-- The `@PACKAGES@` replacement (install.rs lines 517-535): a fixed
stanza with only `firefox` when no extra packages were collected,
otherwise `firefox` followed by the collected packages joined by
newline-plus-indent. -/
def packagesStanza (pkgs : List String) : List Char :=
  if pkgs = [] then
    ("  # List packages installed in system profile.\n  environment.systemPackages = with pkgs; [\n    firefox\n  ];").data
  else
    ("  # List packages installed in system profile.\n  environment.systemPackages = with pkgs; [\n    firefox\n    ").data ++
      joinSep ("\n    ").data pkgs ++ ("\n  ];").data

def stateVersionStanza (sv : List Char) : List Char :=
  ("  system.stateVersion = \"").data ++ sv ++
    ("\"; # Did you read the comment?").data

/-! ## Small string helpers mirroring Rust std behaviour -/

/-- Rust `str::split(sep)` on a single separator character: the list of
fragments (always nonempty). -/
def splitOnChar (sep : Char) : List Char → List (List Char)
  | [] => [[]]
  | c :: rest =>
    let r := splitOnChar sep rest
    if c = sep then [] :: r
    else (c :: r.headD []) :: r.tail

/-- Rust `str::lines`: split on newline, no trailing empty line when the
string ends with a newline, trailing carriage returns stripped. -/
def rustLines (s : List Char) : List (List Char) :=
  match s with
  | [] => []
  | _ =>
    let parts := splitOnChar '\n' s
    let parts := if s.getLast? = some '\n' then parts.dropLast else parts
    parts.map (fun l => if l.getLast? = some '\r' then l.dropLast else l)

/-- Indentation of a snippet, install.rs lines 510-511: every line of
the snippet is two-space indented and followed by a newline. -/
def indentLines (s : List Char) : List Char :=
  (rustLines s).foldl (fun acc l => acc ++ ("  ").data ++ l ++ ['\n']) []

/-! ## Per-file rendering (`iterwrite`, install.rs lines 354-582)

The file's text is transformed by a fixed sequence of `replaceAll`
passes; the boot-loader pass and the state-version pass can fail.
`version` is the observed stdout of `nixos-version` (`none` models a
spawn failure). -/

def nvidiaStep (c : List Char) : List Char :=
  replaceAll c ("@NVIDIAOFFLOAD@").data []

def archStep (arch c : List Char) : List Char :=
  replaceAll c ("@ARCH@").data (arch ++ ("-linux").data)

/-- Bootloader substitution (install.rs lines 374-396).  On a non-UEFI
system the replacement text needs the resolved boot disk and is built
before the textual replacement, so its absence fails the file even when
the marker does not occur. -/
def bootloaderStep (efi : Bool) (bootdisk : Option String) (c : List Char) :
    Except String (List Char) :=
  if efi then Except.ok (replaceAll c ("@BOOTLOADER@").data uefiStanza)
  else
    match bootdisk with
    | none => Except.error ("Failed to get bootloader disk")
    | some d => Except.ok (replaceAll c ("@BOOTLOADER@").data (grubStanza d))

def networkStep (user : Option UserConfig) (c : List Char) : List Char :=
  replaceAll c ("@NETWORK@").data
    (networkStanza ((user.map (fun u => u.hostname)).getD ("nixos")))

def timezoneStep (tz : Option String) (c : List Char) : List Char :=
  match tz with
  | none => c
  | some t => replaceAll c ("@TIMEZONE@").data (timezoneStanza t)

def localeStep (language : Option String) (c : List Char) : List Char :=
  match language with
  | none => c
  | some l => replaceAll c ("@LOCALE@").data (localeStanza l)

/-- Keyboard substitution (install.rs lines 436-464): a keymap with a
`+` is split into layout and variant (first two fragments). -/
def keyboardStep (keyboard : Option String) (c : List Char) : List Char :=
  match keyboard with
  | none => c
  | some k =>
    if k.data.contains '+' then
      let parts := splitOnChar '+' k.data
      replaceAll c ("@KEYBOARD@").data
        (keyboardVariantStanza (parts.headD []) (parts.tail.headD []))
    else replaceAll c ("@KEYBOARD@").data (keyboardStanza k)

def desktopStep (c : List Char) : List Char :=
  replaceAll c ("@DESKTOP@").data desktopStanza

/-- User-dependent substitutions (install.rs lines 475-497).  All four
replacements — including `@AUTOLOGIN@` — happen only when a user is
configured. -/
def userStep (user : Option UserConfig) (c : List Char) : List Char :=
  match user with
  | none => c
  | some u =>
    let c := replaceAll c ("@USERNAME@").data u.username.data
    let c := replaceAll c ("@FULLNAME@").data u.name.data
    let c := replaceAll c ("@HOSTNAME@").data u.hostname.data
    replaceAll c ("@AUTOLOGIN@").data
      (if u.autologin then autologinStanza u.username else [])

/-- Inner loop over one feature group's choices (install.rs lines
503-513): packages are appended to the running package list, config
snippets are indented and appended to the group's text. -/
def choiceFold (choices : List (String × Choice)) (pkgs : List String)
    (listcfg : List Char) : List String × List Char :=
  match choices with
  | [] => (pkgs, listcfg)
  | (_, ch) :: rest =>
    let pkgs :=
      match ch.packages with
      | some ps => pkgs ++ ps
      | none => pkgs
    let listcfg :=
      match ch.config with
      | some cfg => listcfg ++ indentLines cfg.data
      | none => listcfg
    choiceFold rest pkgs listcfg

/-- Outer loop over the feature groups (install.rs lines 500-515): each
group's marker `@<id>@` is replaced by its accumulated snippet text; the
package list accumulates across groups. -/
def groupsFold (list : List (String × List (String × Choice)))
    (config : List Char) (extrapkgs : List String) :
    List Char × List String :=
  match list with
  | [] => (config, extrapkgs)
  | (id, choices) :: rest =>
    let r := choiceFold choices extrapkgs []
    groupsFold rest
      (replaceAll config (("@").data ++ id.data ++ ("@").data) r.2) r.1

def packagesStep (pkgs : List String) (c : List Char) : List Char :=
  replaceAll c ("@PACKAGES@").data (packagesStanza pkgs)

/-- State-version substitution (install.rs lines 537-551): the first 5
characters of the `nixos-version` output; fails when the query fails or
yields fewer than 5 characters. -/
def stateVersionStep (version : Option (List Char)) (c : List Char) :
    Except String (List Char) :=
  match version with
  | none => Except.error ("Failed to get nixos version")
  | some v =>
    if v.length < 5 then Except.error ("Failed to get nixos version")
    else
      Except.ok
        (replaceAll c ("@STATEVERSION@").data (stateVersionStanza (v.take 5)))

/-- Rendering of a single `.nix` template file: the substitution passes
of `iterwrite` in source order. -/
def renderFile (mc : MakeConfig) (efi : Bool) (arch : List Char)
    (version : Option (List Char)) (content : List Char) :
    Except String (List Char) :=
  let c := nvidiaStep content
  let c := archStep arch c
  match bootloaderStep efi mc.bootdisk c with
  | Except.error e => Except.error e
  | Except.ok c =>
    let c := networkStep mc.user c
    let c := timezoneStep mc.timezone c
    let c := localeStep mc.language c
    let c := keyboardStep mc.keyboard c
    let c := desktopStep c
    let c := userStep mc.user c
    let r := groupsFold mc.list c []
    let c := packagesStep r.2 r.1
    stateVersionStep version c

/-! ## Directory walking (`iterwrite`, install.rs lines 354-582)

The template tree is modelled as a list of entries (directory reads are
assumed to succeed; their order models the OS iteration order).  The
walker is fueled — one unit per processed entry, `sizeOf` always
suffices — so that it is structurally recursive and kernel-reducible. -/

inductive FsEntry where
  | dir (name : List Char) (entries : List FsEntry)
  | file (name : List Char) (content : List Char)

mutual

/-- Size of a tree entry, used as the walker's fuel bound. -/
def fsSize : FsEntry → Nat
  | FsEntry.file _ _ => 1
  | FsEntry.dir _ entries => 1 + fsListSize entries

/-- Size of a list of tree entries. -/
def fsListSize : List FsEntry → Nat
  | [] => 1
  | e :: rest => 1 + fsSize e + fsListSize rest

end

/-- Test whether a file name ends with the configuration extension, as
in install.rs line 368. -/
def endsWithNix (name : List Char) : Bool :=
  (".nix").data.isSuffixOf name

/-- One `icicle-helper write-file --path .. --contents ..` invocation. -/
structure WriteAction where
  path : List Char
  contents : List Char
  deriving DecidableEq

/-- Destination path of a rendered file (install.rs lines 556-575):
`ARCH` and `HOSTNAME` segments of the relative template path are
substituted before the path is computed. -/
def destPath (user : Option UserConfig) (arch path name : List Char) :
    List Char :=
  if path = [] then ("/tmp/icicle/etc/nixos/").data ++ name
  else
    ("/tmp/icicle/etc/nixos/").data ++
      replaceAll (replaceAll path ("ARCH").data (arch ++ ("-linux").data))
        ("HOSTNAME").data ((user.map (fun u => u.hostname)).getD ("nixos")).data ++
      ("/").data ++ name

/-- Fueled walker.  Per entry: a subdirectory is walked recursively with
its RESULT'S ERROR DISCARDED (`let _ = iterwrite(...)` in the source,
its writes persist as side effects); a `.nix` file is rendered — a
rendering error stops the remaining entries of the current directory and
propagates — and on success produces one write; other files are
skipped. -/
def iterwriteF (mc : MakeConfig) (efi : Bool) (arch : List Char)
    (version : Option (List Char)) :
    Nat → List Char → List FsEntry → List WriteAction × Option String
  | _, _, [] => ([], none)
  | 0, _, _ => ([], none)
  | fuel + 1, path, FsEntry.dir name sub :: rest =>
    let r := iterwriteF mc efi arch version fuel (path ++ ("/").data ++ name) sub
    let r₂ := iterwriteF mc efi arch version fuel path rest
    (r.1 ++ r₂.1, r₂.2)
  | fuel + 1, path, FsEntry.file name content :: rest =>
    if endsWithNix name then
      match renderFile mc efi arch version content with
      | Except.error e => ([], some e)
      | Except.ok out =>
        let r₂ := iterwriteF mc efi arch version fuel path rest
        (⟨destPath mc.user arch path name, out⟩ :: r₂.1, r₂.2)
    else iterwriteF mc efi arch version fuel path rest

/-- The walker `iterwrite` at adequate fuel.  The result is the list of
privileged file writes performed, in order, and the error (if any) that
the top-level call reports. -/
def iterwrite (mc : MakeConfig) (efi : Bool) (arch : List Char)
    (version : Option (List Char)) (path : List Char)
    (entries : List FsEntry) : List WriteAction × Option String :=
  iterwriteF mc efi arch version (fsListSize entries) path entries

/-! ## Install orchestrator (`InstallAsyncModel`, install.rs lines 22-276) -/

/-- The worker's retained state (install.rs lines 22-26). -/
structure InstallState where
  username : Option String
  password : Option String
  rootpassword : Option String
  deriving DecidableEq

/-- Initial worker state, from InstallAsyncModel::init (install.rs
lines 48-54). -/
def initState : InstallState :=
  { username := none, password := none, rootpassword := none }

/-- Inbound messages (install.rs lines 28-41). -/
inductive InstallAsyncMsg where
  | install (id : String) (language timezone keyboard : Option String)
      (partitions : Option PartitionSchema) (user : Option UserConfig)
      (listconfig : List (String × List (String × Choice)))
      (configtype : ConfigType)
  | finishInstall

/-- Outbound signals to the presentation layer (`AppMsg`). -/
inductive AppMsg where
  | error
  | finished
  deriving DecidableEq

/-- External command invocations the worker performs, in order. -/
inductive StepAction where
  | getArch
  | clearWorkspace
  | applyPartitions
  | generateBaseConfig
  | relocateHardware
  | renderConfig
  | invokeInstaller (cmd : List String)
  | setUserPasswd
  | setRootPasswd
  deriving DecidableEq

/-- Observable outcomes of the external commands the worker runs.
Booleans are success flags of the respective spawn/exit checks; `tree`
is the template set read from disk; `version` is the stdout of
`nixos-version`. -/
structure Env where
  unameOk : Bool
  arch : List Char
  clearOk : Bool
  partitionHelperOk : Bool
  partitionStderr : String
  genConfigOk : Bool
  efi : Bool
  tree : List FsEntry
  version : Option (List Char)
  userSpawnOk : Bool
  userWriteOk : Bool
  rootSpawnOk : Bool
  rootWriteOk : Bool

/-- Partitioning, from the partition function (install.rs lines
278-315): a missing scheme fails
before the helper is spawned; otherwise the helper's exit status
decides. -/
def partition (env : Env) (partitions : Option PartitionSchema) :
    Except String Unit :=
  match partitions with
  | none => Except.error ("No partitions specified")
  | some _ =>
    if env.partitionHelperOk then Except.ok ()
    else Except.error (("Partitioning failed: ").append env.partitionStderr)

/-- Configuration generation, makeconfig (install.rs lines 327-586):
render the whole template
tree of the selected profile. -/
def makeconfig (env : Env) (mc : MakeConfig) :
    List WriteAction × Option String :=
  iterwrite mc env.efi env.arch env.version [] env.tree

/-- User password provisioning, setuserpasswd (install.rs lines
216-238): spawn `chpasswd` inside
the installed root, then pipe `username:password`; the retained
username and password are demanded only after the spawn. -/
def setuserpasswd (env : Env) (username password : Option String) :
    Except String Unit :=
  if env.userSpawnOk = false then Except.error ("Failed to spawn chpasswd")
  else
    match username with
    | none => Except.error ("No username found")
    | some _ =>
      match password with
      | none => Except.error ("No password found")
      | some _ =>
        if env.userWriteOk then Except.ok ()
        else Except.error ("Failed to write to chpasswd stdin")

/-- Root password provisioning, setrootpasswd (install.rs lines
248-263). -/
def setrootpasswd (env : Env) : Except String Unit :=
  if env.rootSpawnOk = false then Except.error ("Failed to spawn chpasswd")
  else if env.rootWriteOk then Except.ok ()
  else Except.error ("Failed to write to chpasswd stdin")

/-- The `nixos-install` command dispatched to the install broker
(install.rs lines 192-207). -/
def installCmd (hostname : String) : List String :=
  [("/usr/bin/env"), ("pkexec"), ("nixos-install"), ("--root"),
    ("/tmp/icicle"), ("--no-root-passwd"), ("--no-channel-copy"),
    ("--flake"), ("/tmp/icicle/etc/nixos#").append hostname]

/-- Result of one `update` call: the new retained state, the external
commands invoked (in order) and the signals sent to the presentation
layer. -/
structure UpdateResult where
  state : InstallState
  actions : List StepAction
  outputs : List AppMsg
  deriving DecidableEq

/-- The worker step function, InstallAsyncModel::update (install.rs
lines 56-275). -/
def update (env : Env) (s : InstallState) (msg : InstallAsyncMsg) :
    UpdateResult :=
  match msg with
  | InstallAsyncMsg.install id language timezone keyboard partitions user
      listconfig configtype =>
    let s₁ : InstallState :=
      { username := user.map (fun u => u.username)
        password := user.map (fun u => u.password)
        rootpassword := user.bind (fun u => u.rootpassword) }
    if env.unameOk = false then
      ⟨s₁, [StepAction.getArch], [AppMsg.error]⟩
    else if env.clearOk = false then
      ⟨s₁, [StepAction.getArch, StepAction.clearWorkspace], [AppMsg.error]⟩
    else
      match partition env partitions with
      | Except.error _ =>
        ⟨s₁, [StepAction.getArch, StepAction.clearWorkspace, StepAction.applyPartitions],
          [AppMsg.error]⟩
      | Except.ok _ =>
        if env.genConfigOk = false then
          ⟨s₁, [StepAction.getArch, StepAction.clearWorkspace, StepAction.applyPartitions,
            StepAction.generateBaseConfig], [AppMsg.error]⟩
        else
          let acts₀ := [StepAction.getArch, StepAction.clearWorkspace,
            StepAction.applyPartitions, StepAction.generateBaseConfig]
          let acts₁ :=
            if configtype = ConfigType.snowfall then
              acts₀ ++ [StepAction.relocateHardware]
            else acts₀
          let mbrdisk := resolveBootDevice partitions
          let mc : MakeConfig :=
            ⟨id, language, timezone, keyboard, user, listconfig, mbrdisk⟩
          match (makeconfig env mc).2 with
          | some _ => ⟨s₁, acts₁ ++ [StepAction.renderConfig], [AppMsg.error]⟩
          | none =>
            match user with
            | some u =>
              ⟨s₁, acts₁ ++ [StepAction.renderConfig,
                StepAction.invokeInstaller (installCmd u.hostname)], []⟩
            | none => ⟨s₁, acts₁ ++ [StepAction.renderConfig], [AppMsg.error]⟩
  | InstallAsyncMsg.finishInstall =>
    match setuserpasswd env s.username s.password with
    | Except.error _ => ⟨s, [StepAction.setUserPasswd], [AppMsg.error]⟩
    | Except.ok _ =>
      match s.rootpassword with
      | some _ =>
        match setrootpasswd env with
        | Except.error _ =>
          ⟨s, [StepAction.setUserPasswd, StepAction.setRootPasswd], [AppMsg.error]⟩
        | Except.ok _ =>
          ⟨s, [StepAction.setUserPasswd, StepAction.setRootPasswd], [AppMsg.finished]⟩
      | none => ⟨s, [StepAction.setUserPasswd], [AppMsg.finished]⟩

/-! ## Claim C1 — boot-device resolution -/

/-- An entry mounted at the filesystem root. -/
def rootPred (part : String × Partition) : Bool :=
  part.2.mountpoint = some ("/")

theorem bootFold_of_filter_nil (parts : List (String × Partition))
    (acc : Option String) (h : parts.filter rootPred = []) :
    parts.foldl
      (fun acc part =>
        if part.2.mountpoint = some ("/") then some part.2.device else acc)
      acc = acc := by
  induction parts generalizing acc with
  | nil => rfl
  | cons q rest ih =>
    rw [List.filter_cons] at h
    by_cases hq : rootPred q = true
    · rw [if_pos hq] at h
      exact absurd h (List.cons_ne_nil q (rest.filter rootPred))
    · rw [if_neg hq] at h
      have hq' : ¬ q.2.mountpoint = some ("/") := by
        simpa [rootPred] using hq
      simp only [List.foldl_cons, if_neg hq']
      exact ih acc h

theorem bootFold_of_filter_single (parts : List (String × Partition))
    (p : String × Partition) (acc : Option String)
    (h : parts.filter rootPred = [p]) :
    parts.foldl
      (fun acc part =>
        if part.2.mountpoint = some ("/") then some part.2.device else acc)
      acc = some p.2.device := by
  induction parts generalizing acc with
  | nil => simp at h
  | cons q rest ih =>
    rw [List.filter_cons] at h
    by_cases hq : rootPred q = true
    · rw [if_pos hq] at h
      have hqp : q = p := (List.cons_eq_cons.mp h).1
      have hrest : rest.filter rootPred = [] := (List.cons_eq_cons.mp h).2
      have hq' : q.2.mountpoint = some ("/") := by
        simpa [rootPred] using hq
      simp only [List.foldl_cons, if_pos hq']
      rw [bootFold_of_filter_nil rest _ hrest, hqp]
    · rw [if_neg hq] at h
      have hq' : ¬ q.2.mountpoint = some ("/") := by
        simpa [rootPred] using hq
      simp only [List.foldl_cons, if_neg hq']
      exact ih acc h

/-- Claim C1: boot-device resolution is a pure function of the partition
scheme: `FullDisk d` resolves to `d`; a `Custom` scheme with exactly one
entry mounted at `"/"` resolves to that entry's device; a `Custom`
scheme with no such entry resolves to none. -/
theorem resolveBootDevice_spec :
    (∀ d : String,
      resolveBootDevice (some (PartitionSchema.fullDisk d)) = some d) ∧
    (∀ (parts : List (String × Partition)) (p : String × Partition),
      parts.filter rootPred = [p] →
      resolveBootDevice (some (PartitionSchema.custom parts)) =
        some p.2.device) ∧
    (∀ parts : List (String × Partition),
      parts.filter rootPred = [] →
      resolveBootDevice (some (PartitionSchema.custom parts)) = none) := by
  refine ⟨fun d => rfl, fun parts p h => ?_, fun parts h => ?_⟩
  · exact bootFold_of_filter_single parts p none h
  · exact bootFold_of_filter_nil parts none h

def partsOneRoot : List (String × Partition) :=
  [(("boot"), ⟨("/dev/sda1"), some ("/boot")⟩),
   (("root"), ⟨("/dev/sda2"), some ("/")⟩)]

def partsNoRoot : List (String × Partition) :=
  [(("swap"), ⟨("/dev/sda3"), none⟩)]

theorem resolveBootDevice_spec_witness :
    resolveBootDevice (some (PartitionSchema.fullDisk ("/dev/sda"))) =
      some ("/dev/sda") ∧
    resolveBootDevice (some (PartitionSchema.custom partsOneRoot)) =
      some ("/dev/sda2") ∧
    resolveBootDevice (some (PartitionSchema.custom partsNoRoot)) = none :=
  ⟨resolveBootDevice_spec.1 ("/dev/sda"),
   resolveBootDevice_spec.2.1 partsOneRoot
     ((("root"), ⟨("/dev/sda2"), some ("/")⟩)) (by decide),
   resolveBootDevice_spec.2.2 partsNoRoot (by decide)⟩

/-! ## Claims C4, C10, C6 — orchestrator state and failure handling -/

/-- Claim C4 (amended): processing the installer-completion message
leaves the worker's retained credential fields untouched — `update`
never clears them; they are only overwritten by the next `Install`
message or dropped with the worker itself. -/
theorem update_finishInstall_preserves_state (env : Env) (s : InstallState) :
    (update env s InstallAsyncMsg.finishInstall).state = s := by
  simp only [update]
  cases setuserpasswd env s.username s.password with
  | error e => rfl
  | ok u =>
    cases s.rootpassword with
    | none => rfl
    | some r =>
      cases setrootpasswd env with
      | error e => rfl
      | ok u => rfl

/-- An environment in which every external command succeeds. -/
def envAllOk : Env :=
  { unameOk := true
    arch := ("x86_64").data
    clearOk := true
    partitionHelperOk := true
    partitionStderr := ("")
    genConfigOk := true
    efi := true
    tree := []
    version := some (("23.05").data)
    userSpawnOk := true
    userWriteOk := true
    rootSpawnOk := true
    rootWriteOk := true }

def stateWithCreds : InstallState :=
  { username := some ("alice")
    password := some ("hunter2")
    rootpassword := some ("tr0ub4dor") }

/-- Counterexample to claim C4 as stated: after the FinishInstall
message is processed to completion (the Finished signal is emitted),
the retained username, password and root password are all still
present — the credential-provisioning step does not clear them. -/
theorem update_finishInstall_not_cleared_cex :
    (update envAllOk stateWithCreds InstallAsyncMsg.finishInstall).outputs =
      [AppMsg.finished] ∧
    (update envAllOk stateWithCreds
        InstallAsyncMsg.finishInstall).state.username = some ("alice") ∧
    (update envAllOk stateWithCreds
        InstallAsyncMsg.finishInstall).state.password = some ("hunter2") ∧
    (update envAllOk stateWithCreds
        InstallAsyncMsg.finishInstall).state.rootpassword =
      some ("tr0ub4dor") :=
  ⟨rfl, rfl, rfl, rfl⟩

/-- Claim C10: a FinishInstall message arriving while the retained
username or password is absent makes the password-setting step fail:
the worker emits the generic Error signal and no Finished signal. -/
theorem update_finishInstall_missing_creds (env : Env) (s : InstallState)
    (h : s.username = none ∨ s.password = none) :
    (update env s InstallAsyncMsg.finishInstall).outputs = [AppMsg.error] ∧
    AppMsg.finished ∉
      (update env s InstallAsyncMsg.finishInstall).outputs := by
  have herr : ∃ e, setuserpasswd env s.username s.password =
      Except.error e := by
    unfold setuserpasswd
    by_cases hs : env.userSpawnOk = false
    · rw [if_pos hs]; exact ⟨_, rfl⟩
    · rw [if_neg hs]
      cases hu : s.username with
      | none => exact ⟨_, rfl⟩
      | some u =>
        cases hp : s.password with
        | none => exact ⟨_, rfl⟩
        | some p =>
          rcases h with h | h
          · rw [hu] at h; exact absurd h (by simp)
          · rw [hp] at h; exact absurd h (by simp)
  obtain ⟨e, he⟩ := herr
  constructor
  · simp only [update, he]
  · simp only [update, he]
    simp

theorem update_finishInstall_missing_creds_witness :
    initState.username = none ∧
    ((update envAllOk initState InstallAsyncMsg.finishInstall).outputs =
        [AppMsg.error] ∧
      AppMsg.finished ∉
        (update envAllOk initState InstallAsyncMsg.finishInstall).outputs) :=
  ⟨rfl, update_finishInstall_missing_creds envAllOk initState (Or.inl rfl)⟩

/-- Claim C6: a request with no `PartitionScheme` aborts at the
partitioning step with a "No partitions specified" error, emits the
generic Error signal, and never invokes base-config generation. -/
theorem update_no_partitions_aborts (env : Env) (s : InstallState)
    (id : String) (language timezone keyboard : Option String)
    (user : Option UserConfig)
    (listconfig : List (String × List (String × Choice)))
    (configtype : ConfigType)
    (h₁ : env.unameOk = true) (h₂ : env.clearOk = true) :
    partition env none = Except.error ("No partitions specified") ∧
    (update env s (InstallAsyncMsg.install id language timezone keyboard
        none user listconfig configtype)).outputs = [AppMsg.error] ∧
    (update env s (InstallAsyncMsg.install id language timezone keyboard
        none user listconfig configtype)).actions =
      [StepAction.getArch, StepAction.clearWorkspace,
        StepAction.applyPartitions] ∧
    StepAction.generateBaseConfig ∉
      (update env s (InstallAsyncMsg.install id language timezone keyboard
        none user listconfig configtype)).actions := by
  have hp : partition env none = Except.error ("No partitions specified") :=
    rfl
  refine ⟨hp, ?_, ?_, ?_⟩ <;> simp [update, h₁, h₂, hp]

def msgC6 : InstallAsyncMsg :=
  InstallAsyncMsg.install ("gnome") none none none none none []
    ConfigType.standard

theorem update_no_partitions_aborts_witness :
    partition envAllOk none = Except.error ("No partitions specified") ∧
    (update envAllOk initState msgC6).outputs = [AppMsg.error] ∧
    (update envAllOk initState msgC6).actions =
      [StepAction.getArch, StepAction.clearWorkspace,
        StepAction.applyPartitions] ∧
    StepAction.generateBaseConfig ∉
      (update envAllOk initState msgC6).actions :=
  update_no_partitions_aborts envAllOk initState ("gnome") none none none
    none [] ConfigType.standard rfl rfl

/-! ## Claim C2 — tokens are replaced at every occurrence -/

/-- Claim C2 (amended): the renderer's substitution primitive replaces
EVERY non-overlapping occurrence of a token, not only the first: in a
file laid out as marker-free text around two occurrences of a token,
both occurrences are replaced. -/
theorem replaceAll_replaces_both_occurrences (p rep a b c : List Char)
    (ha : ∀ x ∈ a, x ≠ '@') (hb : ∀ x ∈ b, x ≠ '@')
    (hc : ∀ x ∈ c, x ≠ '@') :
    replaceAll (a ++ ('@' :: p) ++ b ++ ('@' :: p) ++ c) ('@' :: p) rep =
      a ++ rep ++ b ++ rep ++ c := by
  have hpat : ('@' :: p) ≠ [] := List.cons_ne_nil _ _
  calc replaceAll (a ++ ('@' :: p) ++ b ++ ('@' :: p) ++ c) ('@' :: p) rep
      = replaceAll (a ++ (('@' :: p) ++ (b ++ (('@' :: p) ++ c))))
          ('@' :: p) rep := by
        simp [List.append_assoc]
    _ = a ++ replaceAll (('@' :: p) ++ (b ++ (('@' :: p) ++ c)))
          ('@' :: p) rep :=
        replaceAll_skip p rep a _ ha
    _ = a ++ (rep ++ replaceAll (b ++ (('@' :: p) ++ c)) ('@' :: p) rep) := by
        rw [replaceAll_append_self _ _ _ hpat]
    _ = a ++ (rep ++ (b ++ replaceAll (('@' :: p) ++ c) ('@' :: p) rep)) := by
        rw [replaceAll_skip p rep b _ hb]
    _ = a ++ (rep ++ (b ++ (rep ++ replaceAll c ('@' :: p) rep))) := by
        rw [replaceAll_append_self _ _ _ hpat]
    _ = a ++ (rep ++ (b ++ (rep ++ c))) := by
        rw [replaceAll_of_no_at p rep c hc]
    _ = a ++ rep ++ b ++ rep ++ c := by simp [List.append_assoc]

theorem replaceAll_replaces_both_occurrences_witness :
    (∀ x ∈ ("x ").data, x ≠ '@') ∧
    replaceAll (("x ").data ++ ('@' :: ("DESKTOP@").data) ++ (" y ").data ++
        ('@' :: ("DESKTOP@").data) ++ (" z").data) ('@' :: ("DESKTOP@").data)
        (("R").data) =
      ("x ").data ++ ("R").data ++ (" y ").data ++ ("R").data ++
        (" z").data :=
  ⟨by decide,
   replaceAll_replaces_both_occurrences (("DESKTOP@").data) (("R").data)
     (("x ").data) ((" y ").data) ((" z").data)
     (by decide) (by decide) (by decide)⟩

/-- A request with no user, no options and no feature selections. -/
def mcPlain : MakeConfig :=
  ⟨("gnome"), none, none, none, none, [], none⟩

/-- Counterexample to claim C2 as stated: rendering a file that contains
the desktop marker twice replaces BOTH occurrences; the second one is
not left unreplaced (the marker no longer occurs in the output at
all). -/
theorem renderFile_second_occurrence_cex :
    renderFile mcPlain true (("x86_64").data) (some (("23.05").data))
        (("@DESKTOP@+@DESKTOP@").data) =
      Except.ok (desktopStanza ++ ('+' :: desktopStanza)) ∧
    occursIn (("@DESKTOP@").data) (desktopStanza ++ ('+' :: desktopStanza)) =
      false :=
  ⟨rfl, by decide⟩

/-! ## Claim C3 — no user: autologin and user markers untouched -/

/-- The tokens the renderer substitutes when no user is configured and
no feature group is selected. -/
def renderTokens : List String :=
  [("@NVIDIAOFFLOAD@"), ("@ARCH@"), ("@BOOTLOADER@"), ("@NETWORK@"),
   ("@TIMEZONE@"), ("@LOCALE@"), ("@KEYBOARD@"), ("@DESKTOP@"),
   ("@PACKAGES@"), ("@STATEVERSION@")]

/-- Claim C3 (amended): with no `UserConfig` in the request, the
`@AUTOLOGIN@`, `@USERNAME@`, `@FULLNAME@` and `@HOSTNAME@` markers are
all left unsubstituted — the user block of `iterwrite` is skipped
entirely, so `@AUTOLOGIN@` is NOT replaced by empty text.  On a
template in which none of the tokens the renderer does substitute
occurs, rendering is the identity: any user-block markers in the
template survive verbatim. -/
theorem renderFile_no_user_leaves_markers (mc : MakeConfig) (efi : Bool)
    (arch : List Char) (v t : List Char)
    (huser : mc.user = none) (hlist : mc.list = [])
    (hboot : efi = true ∨ mc.bootdisk ≠ none)
    (hv : ¬ v.length < 5)
    (htoks : ∀ tok ∈ renderTokens, occursIn tok.data t = false) :
    renderFile mc efi arch (some v) t = Except.ok t := by
  have hn : nvidiaStep t = t :=
    replaceAll_of_not_occurs _ _ t (htoks ("@NVIDIAOFFLOAD@") (by decide))
  have harch : archStep arch t = t :=
    replaceAll_of_not_occurs _ _ t (htoks ("@ARCH@") (by decide))
  have hboottok := htoks ("@BOOTLOADER@") (by decide)
  have hbootok : bootloaderStep efi mc.bootdisk t = Except.ok t := by
    unfold bootloaderStep
    by_cases hefi : efi
    · rw [if_pos hefi, replaceAll_of_not_occurs _ _ t hboottok]
    · rw [if_neg hefi]
      rcases hboot with h | h
      · exact absurd h hefi
      · cases hbd : mc.bootdisk with
        | none => exact absurd hbd h
        | some d =>
          show Except.ok (replaceAll t (("@BOOTLOADER@").data)
            (grubStanza d)) = Except.ok t
          rw [replaceAll_of_not_occurs _ _ t hboottok]
  have hnet : networkStep none t = t :=
    replaceAll_of_not_occurs _ _ t (htoks ("@NETWORK@") (by decide))
  have htz : timezoneStep mc.timezone t = t := by
    cases mc.timezone with
    | none => rfl
    | some tz =>
      exact replaceAll_of_not_occurs _ _ t (htoks ("@TIMEZONE@") (by decide))
  have hloc : localeStep mc.language t = t := by
    cases mc.language with
    | none => rfl
    | some l =>
      exact replaceAll_of_not_occurs _ _ t (htoks ("@LOCALE@") (by decide))
  have hkb : keyboardStep mc.keyboard t = t := by
    cases mc.keyboard with
    | none => rfl
    | some k =>
      simp only [keyboardStep]
      split
      · exact replaceAll_of_not_occurs _ _ t (htoks ("@KEYBOARD@") (by decide))
      · exact replaceAll_of_not_occurs _ _ t (htoks ("@KEYBOARD@") (by decide))
  have hdesk : desktopStep t = t :=
    replaceAll_of_not_occurs _ _ t (htoks ("@DESKTOP@") (by decide))
  have hpkg : packagesStep [] t = t :=
    replaceAll_of_not_occurs _ _ t (htoks ("@PACKAGES@") (by decide))
  have hsv : stateVersionStep (some v) t = Except.ok t := by
    simp only [stateVersionStep, if_neg hv]
    rw [replaceAll_of_not_occurs _ _ t (htoks ("@STATEVERSION@") (by decide))]
  simp only [renderFile, hn, harch, hbootok, hnet, htz, hloc, hkb, hdesk,
    huser, userStep, hlist, groupsFold, hpkg, hsv]

/-- A template holding only the four user-block markers. -/
def markersTemplate : List Char :=
  ("A@AUTOLOGIN@B@USERNAME@C@FULLNAME@D@HOSTNAME@E").data

theorem renderFile_no_user_leaves_markers_witness :
    (∀ tok ∈ renderTokens, occursIn tok.data markersTemplate = false) ∧
    occursIn (("@AUTOLOGIN@").data) markersTemplate = true ∧
    renderFile mcPlain true (("x86_64").data) (some (("23.05").data))
      markersTemplate = Except.ok markersTemplate :=
  ⟨by decide, by decide,
   renderFile_no_user_leaves_markers mcPlain true (("x86_64").data)
     (("23.05").data) markersTemplate rfl rfl (Or.inl rfl) (by decide)
     (by decide)⟩

/-- Counterexample to claim C3 as stated: rendering with no user leaves
`@AUTOLOGIN@` in the output verbatim; the output differs from the one
the claim demands (marker substituted with empty text). -/
theorem renderFile_no_user_autologin_cex :
    renderFile mcPlain true (("x86_64").data) (some (("23.05").data))
        (("A@AUTOLOGIN@B").data) = Except.ok (("A@AUTOLOGIN@B").data) ∧
    occursIn (("@AUTOLOGIN@").data) (("A@AUTOLOGIN@B").data) = true ∧
    ("A@AUTOLOGIN@B").data ≠
      replaceAll (("A@AUTOLOGIN@B").data) (("@AUTOLOGIN@").data) [] :=
  ⟨rfl, by decide, by decide⟩

/-! ## Claim C7 — legacy bootloader needs the boot device -/

/-- Claim C7: on a non-UEFI system with no resolvable boot device every
`.nix` file render fails with the boot-device error ("Failed to get
bootloader disk") — the grub replacement text demands the boot disk
before the textual replacement, so the failure precedes the file's
write — and the walker then writes no file at all, at any fuel, any
path, any tree; on a UEFI system the bootloader marker is replaced by
the UEFI stanza regardless of the boot device. -/
theorem render_legacy_no_bootdisk_spec :
    (∀ (mc : MakeConfig) (arch : List Char) (version : Option (List Char))
      (content : List Char), mc.bootdisk = none →
      renderFile mc false arch version content =
        Except.error ("Failed to get bootloader disk")) ∧
    (∀ (mc : MakeConfig) (arch : List Char) (version : Option (List Char))
      (fuel : Nat) (path : List Char) (entries : List FsEntry),
      mc.bootdisk = none →
      (iterwriteF mc false arch version fuel path entries).1 = []) ∧
    (∀ (bootdisk : Option String) (c : List Char),
      bootloaderStep true bootdisk c =
        Except.ok (replaceAll c (("@BOOTLOADER@").data) uefiStanza)) := by
  have herr : ∀ (mc : MakeConfig) (arch : List Char)
      (version : Option (List Char)) (content : List Char),
      mc.bootdisk = none →
      renderFile mc false arch version content =
        Except.error ("Failed to get bootloader disk") := by
    intro mc arch version content hbd
    simp [renderFile, bootloaderStep, hbd]
  refine ⟨herr, ?_, ?_⟩
  · intro mc arch version fuel path entries hbd
    induction fuel generalizing path entries with
    | zero => cases entries <;> rfl
    | succ f ih =>
      cases entries with
      | nil => rfl
      | cons e rest =>
        cases e with
        | dir name sub => simp [iterwriteF, ih]
        | file name cont =>
          by_cases hnix : endsWithNix name = true
          · simp [iterwriteF, hnix, herr mc arch version cont hbd]
          · simp [iterwriteF, hnix, ih]
  · intro bootdisk c
    rfl

def treeC7 : List FsEntry :=
  [FsEntry.file (("a.nix").data) (("x").data)]

theorem render_legacy_no_bootdisk_spec_witness :
    renderFile mcPlain false (("x86_64").data) (some (("23.05").data))
      (("hello").data) = Except.error ("Failed to get bootloader disk") ∧
    (iterwriteF mcPlain false (("x86_64").data) (some (("23.05").data))
      (fsListSize treeC7) [] treeC7).1 = [] ∧
    bootloaderStep true none (("@BOOTLOADER@").data) =
      Except.ok (replaceAll (("@BOOTLOADER@").data) (("@BOOTLOADER@").data)
        uefiStanza) :=
  ⟨render_legacy_no_bootdisk_spec.1 mcPlain (("x86_64").data)
     (some (("23.05").data)) (("hello").data) rfl,
   render_legacy_no_bootdisk_spec.2.1 mcPlain (("x86_64").data)
     (some (("23.05").data)) (fsListSize treeC7) [] treeC7 rfl,
   render_legacy_no_bootdisk_spec.2.2 none (("@BOOTLOADER@").data)⟩

/-! ## Claim C9 — state-version substitution -/

/-- Claim C9: the state-version marker is replaced by a stanza holding
exactly the first 5 characters of the detected version string; with
fewer than 5 characters available the substitution — and hence the
file's rendering — fails. -/
theorem stateVersion_spec :
    (∀ (v c : List Char), 5 ≤ v.length →
      stateVersionStep (some v) c =
        Except.ok (replaceAll c (("@STATEVERSION@").data)
          (stateVersionStanza (v.take 5)))) ∧
    (∀ (v c : List Char), v.length < 5 →
      stateVersionStep (some v) c =
        Except.error ("Failed to get nixos version")) ∧
    (∀ (mc : MakeConfig) (arch c v : List Char), v.length < 5 →
      renderFile mc true arch (some v) c =
        Except.error ("Failed to get nixos version")) := by
  refine ⟨?_, ?_, ?_⟩
  · intro v c h
    simp only [stateVersionStep]
    rw [if_neg (by omega)]
  · intro v c h
    simp only [stateVersionStep, if_pos h]
  · intro mc arch c v h
    simp [renderFile, bootloaderStep, stateVersionStep, if_pos h]

theorem stateVersion_spec_witness :
    stateVersionStep (some (("23.05").data)) (("Q@STATEVERSION@").data) =
      Except.ok (replaceAll (("Q@STATEVERSION@").data)
        (("@STATEVERSION@").data)
        (stateVersionStanza ((("23.05").data).take 5))) ∧
    stateVersionStep (some (("1.2").data)) (("Q").data) =
      Except.error ("Failed to get nixos version") ∧
    renderFile mcPlain true (("x86_64").data) (some (("1.2").data))
      (("Q").data) = Except.error ("Failed to get nixos version") :=
  ⟨stateVersion_spec.1 (("23.05").data) (("Q@STATEVERSION@").data)
     (by decide),
   stateVersion_spec.2.1 (("1.2").data) (("Q").data) (by decide),
   stateVersion_spec.2.2 mcPlain (("x86_64").data) (("Q").data)
     (("1.2").data) (by decide)⟩

/-! ## Claim C8 — packages stanza -/

/-- Spec-side formulation of the collected package list: every package
contributed by every selected option, in selection-encounter order
(the model's association-list order), duplicates kept. -/
def choicePkgs : List (String × Choice) → List String
  | [] => []
  | (_, ch) :: rest => (ch.packages).getD [] ++ choicePkgs rest

/-- Spec-side formulation over all feature groups. -/
def collectPkgs : List (String × List (String × Choice)) → List String
  | [] => []
  | g :: rest => choicePkgs g.2 ++ collectPkgs rest

/-- Spec-side formulation of the packages stanza: the fixed baseline
package `firefox` followed by the collected packages, joined by
newline-plus-indent. -/
def specPackagesStanza (pkgs : List String) : List Char :=
  ("  # List packages installed in system profile.\n  environment.systemPackages = with pkgs; [\n    ").data ++
    joinSep (("\n    ").data) (("firefox") :: pkgs) ++ ("\n  ];").data

theorem choiceFold_fst (cs : List (String × Choice)) :
    ∀ (pkgs : List String) (l : List Char),
      (choiceFold cs pkgs l).1 = pkgs ++ choicePkgs cs := by
  induction cs with
  | nil => intro pkgs l; simp [choiceFold, choicePkgs]
  | cons kc rest ih =>
    intro pkgs l
    obtain ⟨k, ch⟩ := kc
    cases hp : ch.packages with
    | none => simp [choiceFold, choicePkgs, hp, ih]
    | some ps => simp [choiceFold, choicePkgs, hp, ih]

theorem groupsFold_snd (ls : List (String × List (String × Choice))) :
    ∀ (c : List Char) (pk : List String),
      (groupsFold ls c pk).2 = pk ++ collectPkgs ls := by
  induction ls with
  | nil => intro c pk; simp [groupsFold, collectPkgs]
  | cons g rest ih =>
    intro c pk
    obtain ⟨id, choices⟩ := g
    simp [groupsFold, collectPkgs, ih, choiceFold_fst]

theorem packagesStanza_eq_spec (pkgs : List String) :
    packagesStanza pkgs = specPackagesStanza pkgs := by
  cases pkgs with
  | nil => decide
  | cons p ps =>
    have hpre : ("  # List packages installed in system profile.\n  environment.systemPackages = with pkgs; [\n    firefox\n    ").data =
        ("  # List packages installed in system profile.\n  environment.systemPackages = with pkgs; [\n    ").data ++
          (("firefox").data ++ ("\n    ").data) := by decide
    have hne : (p :: ps : List String) ≠ [] := List.cons_ne_nil _ _
    simp only [packagesStanza, if_neg hne, specPackagesStanza, joinSep, hpre]
    simp [List.append_assoc]

/-- Claim C8: the packages marker is replaced by a stanza containing the
fixed baseline package `firefox` followed by every package contributed
by every selected feature option, preserving selection-encounter order
(the model's association-list order; the Rust `HashMap` iteration order
is what the list order models), with duplicates passing through: the
package list accumulated by the feature-group fold is exactly the
in-order concatenation of the options' package lists, and the built
stanza coincides with the spec-side formulation. -/
theorem packages_spec :
    (∀ (list : List (String × List (String × Choice))) (c : List Char),
      (groupsFold list c []).2 = collectPkgs list) ∧
    (∀ pkgs : List String, packagesStanza pkgs = specPackagesStanza pkgs) ∧
    (∀ (pkgs : List String) (c : List Char),
      packagesStep pkgs c =
        replaceAll c (("@PACKAGES@").data) (specPackagesStanza pkgs)) := by
  refine ⟨?_, packagesStanza_eq_spec, ?_⟩
  · intro list c
    simp [groupsFold_snd]
  · intro pkgs c
    simp [packagesStep, packagesStanza_eq_spec]

/-! ## Claim C5 — failure propagation through the template tree -/

/-- Claim C5 (amended): an unmet required substitution aborts the
failing file, the remaining files of its own directory, and — when the
file sits at the top level of the template tree — the whole `iterwrite`
call (so `makeconfig` errors and the pipeline aborts); but a failure
inside a subdirectory is swallowed by the walker (the source discards
the recursive call's result with `let _ = iterwrite(..)`), so when
every TOP-LEVEL `.nix` file renders successfully the walker reports
success regardless of failures in subdirectories. -/
theorem iterwrite_error_propagation :
    (∀ (mc : MakeConfig) (efi : Bool) (arch : List Char)
      (version : Option (List Char)) (path name content : List Char)
      (rest : List FsEntry) (e : String),
      endsWithNix name = true →
      renderFile mc efi arch version content = Except.error e →
      iterwrite mc efi arch version path
        (FsEntry.file name content :: rest) = ([], some e)) ∧
    (∀ (mc : MakeConfig) (efi : Bool) (arch : List Char)
      (version : Option (List Char)) (path : List Char)
      (entries : List FsEntry),
      (∀ name content, FsEntry.file name content ∈ entries →
        endsWithNix name = true →
        ∃ out, renderFile mc efi arch version content = Except.ok out) →
      (iterwrite mc efi arch version path entries).2 = none) := by
  constructor
  · intro mc efi arch version path name content rest e hnix herr
    have hf : fsListSize (FsEntry.file name content :: rest) =
        (1 + fsListSize rest) + 1 := by
      simp only [fsListSize, fsSize]; omega
    unfold iterwrite
    rw [hf]
    simp [iterwriteF, hnix, herr]
  · intro mc efi arch version path entries hok
    have main : ∀ (fuel : Nat) (path : List Char) (entries : List FsEntry),
        (∀ name content, FsEntry.file name content ∈ entries →
          endsWithNix name = true →
          ∃ out, renderFile mc efi arch version content = Except.ok out) →
        (iterwriteF mc efi arch version fuel path entries).2 = none := by
      intro fuel
      induction fuel with
      | zero => intro path entries _; cases entries <;> rfl
      | succ f ih =>
        intro path entries hok
        cases entries with
        | nil => rfl
        | cons e rest =>
          have hrest : ∀ name content, FsEntry.file name content ∈ rest →
              endsWithNix name = true →
              ∃ out, renderFile mc efi arch version content =
                Except.ok out :=
            fun name content hm => hok name content (List.mem_cons_of_mem e hm)
          cases e with
          | dir name sub => simp [iterwriteF, ih _ rest hrest]
          | file name cont =>
            by_cases hnix : endsWithNix name = true
            · obtain ⟨out, hout⟩ :=
                hok name cont (List.mem_cons_self _ _) hnix
              simp [iterwriteF, hnix, hout, ih _ rest hrest]
            · simp [iterwriteF, hnix, ih _ rest hrest]
    exact main (fsListSize entries) path entries hok

theorem iterwrite_error_propagation_witness :
    endsWithNix (("a.nix").data) = true ∧
    renderFile mcPlain false (("x86_64").data) (some (("23.05").data))
      (("x").data) = Except.error ("Failed to get bootloader disk") ∧
    iterwrite mcPlain false (("x86_64").data) (some (("23.05").data)) []
      [FsEntry.file (("a.nix").data) (("x").data)] =
      ([], some ("Failed to get bootloader disk")) ∧
    (iterwrite mcPlain true (("x86_64").data) (some (("23.05").data)) []
      [FsEntry.dir (("sub").data)
        [FsEntry.file (("b.nix").data) (("y").data)]]).2 = none :=
  ⟨by decide, rfl,
   iterwrite_error_propagation.1 mcPlain false (("x86_64").data)
     (some (("23.05").data)) [] (("a.nix").data) (("x").data) []
     ("Failed to get bootloader disk") (by decide) rfl,
   iterwrite_error_propagation.2 mcPlain true (("x86_64").data)
     (some (("23.05").data)) []
     [FsEntry.dir (("sub").data)
       [FsEntry.file (("b.nix").data) (("y").data)]]
     (by intro name content hmem hnix; simp at hmem)⟩

/-- An environment whose template tree hides its only (failing) `.nix`
file inside a subdirectory: every render fails on the too-short version
string. -/
def envSubdirFail : Env :=
  { envAllOk with
    version := some (("1.2").data)
    tree := [FsEntry.dir (("sub").data)
      [FsEntry.file (("a.nix").data) (("x").data)]] }

def userC5 : UserConfig :=
  { username := ("alice")
    name := ("Alice")
    password := ("pw")
    rootpassword := none
    hostname := ("host")
    autologin := false }

def mcC5 : MakeConfig :=
  ⟨("gnome"), none, none, none, some userC5, [], some ("/dev/sda")⟩

def msgC5 : InstallAsyncMsg :=
  InstallAsyncMsg.install ("gnome") none none none
    (some (PartitionSchema.fullDisk ("/dev/sda"))) (some userC5) []
    ConfigType.standard

/-- Counterexample to claim C5 as stated: the template tree's only
`.nix` file (in a subdirectory) fails its required state-version
substitution, yet the pipeline emits NO error signal and proceeds to
invoke the installer — the subdirectory failure does not abort the
pipeline. -/
theorem update_subdir_render_failure_ignored_cex :
    renderFile mcC5 true (("x86_64").data) (some (("1.2").data))
      (("x").data) = Except.error ("Failed to get nixos version") ∧
    (update envSubdirFail initState msgC5).outputs = [] ∧
    (update envSubdirFail initState msgC5).actions =
      [StepAction.getArch, StepAction.clearWorkspace,
        StepAction.applyPartitions, StepAction.generateBaseConfig,
        StepAction.renderConfig,
        StepAction.invokeInstaller (installCmd ("host"))] :=
  ⟨rfl, rfl, rfl⟩
